import Mathlib

/-!
# AudSync — formal model of the wire framing, jitter buffer, and server relay

A shallow embedding of the AudSync client/server sources.  Each definition
mirrors one function of the C++ source:

* `Message`, `Message.serialize`, `Message.deserialize` — `src/Message.cpp`
  (the magic-checked 24-byte header codec used by `CaptureSink`/`RenderSource`);
* `NMMessage`, `serializeNMMessage` — the second wire format of
  `src/NetworkManager.cpp` (16-byte header: type, size, timestamp; no magic);
* `RSState`, `addToJitterBuffer`, `getFromJitterBuffer` — the sequence-indexed
  jitter buffer of `src/RenderSource.cpp` (a `std::map` keyed by sequence);
* `handleClientMessage`, `broadcastAudioToOthers`, `addClient` —
  `src/AudioServer.cpp`;
* `onAudioCaptured`, `clientHandleAudioData` — `src/AudioClient.cpp`.

Machine integers are modelled as `Nat` with explicit `% 2 ^ w` at the points
where the C++ performs wrapping arithmetic; little-endian byte strings are
`List Nat` with every element below 256.
-/

/-- Little-endian encoding of `v` into `n` bytes, least significant first
(the in-memory layout that `std::memcpy` of a little-endian integer field
produces). -/
def leBytes : Nat → Nat → List Nat
  | 0, _ => []
  | n + 1, v => v % 256 :: leBytes n (v / 256)

/-- Little-endian decoding of a byte string back into a natural number. -/
def fromLE : List Nat → Nat
  | [] => 0
  | b :: rest => b + 256 * fromLE rest

theorem leBytes_length (n v : Nat) : (leBytes n v).length = n := by
  induction n generalizing v with
  | zero => rfl
  | succ n ih => simp [leBytes, ih]

theorem fromLE_leBytes (n v : Nat) (h : v < 256 ^ n) : fromLE (leBytes n v) = v := by
  induction n generalizing v with
  | zero =>
    simp only [Nat.pow_zero, Nat.lt_one_iff] at h
    simp [h, leBytes, fromLE]
  | succ n ih =>
    have hdiv : v / 256 < 256 ^ n := by
      rw [Nat.div_lt_iff_lt_mul (by norm_num)]
      calc v < 256 ^ (n + 1) := h
        _ = 256 ^ n * 256 := by ring
    simp [leBytes, fromLE, ih _ hdiv, Nat.mod_add_div]

/-- Every byte emitted by `leBytes` is below 256. -/
theorem leBytes_lt (n v : Nat) : ∀ b ∈ leBytes n v, b < 256 := by
  induction n generalizing v with
  | zero => simp [leBytes]
  | succ n ih =>
    intro b hb
    simp only [leBytes, List.mem_cons] at hb
    rcases hb with h | h
    · exact h ▸ Nat.mod_lt _ (by norm_num)
    · exact ih _ b h

/-- Taking exactly the first chunk of an append. -/
theorem take_append_chunk (a b : List Nat) (n : Nat) (h : a.length = n) :
    (a ++ b).take n = a := by
  subst h; exact List.take_left a b

/-- Dropping exactly the first chunk of an append. -/
theorem drop_append_chunk (a b : List Nat) (n : Nat) (h : a.length = n) :
    (a ++ b).drop n = b := by
  subst h; exact List.drop_left a b

/-! ## The `Message.cpp` wire format

`MessageHeader` is 24 bytes: `magic : u32`, `type : u16`, two bytes of struct
padding, `length : u32`, `sequence : u32`, `timestamp : u64`.  The class keeps
the padding bytes of the in-memory struct, so the model carries them in the
`pad` field (`Message::serialize` memcpys the whole struct and
`Message::deserialize` memcpys the raw buffer back into it). -/

/-- The `Message` class of `src/Message.cpp`: the stored header fields plus the
payload `data_`. -/
structure Message where
  magic : Nat
  type : Nat
  pad : Nat
  length : Nat
  sequence : Nat
  timestamp : Nat
  data : List Nat
deriving DecidableEq, Repr

/-- The magic constant `0x41554453` ("AUDS"). -/
def MESSAGE_MAGIC : Nat := 0x41554453

/-- Field-width well-formedness: what the C++ types (`uint32_t`, `uint16_t`,
`uint64_t`, `std::vector<uint8_t>`) guarantee about any in-memory `Message`. -/
def Message.WF (m : Message) : Prop :=
  m.magic < 2 ^ 32 ∧ m.type < 2 ^ 16 ∧ m.pad < 2 ^ 16 ∧ m.length < 2 ^ 32 ∧
    m.sequence < 2 ^ 32 ∧ m.timestamp < 2 ^ 64 ∧ ∀ b ∈ m.data, b < 256

instance (m : Message) : Decidable m.WF := by
  unfold Message.WF; infer_instance

/-- Predicate `Message::isValid`: magic matches and the stored length is consistent with
the payload size.  Every constructor and setter of the class maintains
`length = 24 + data.size()` via `updateLength`. -/
def Message.isValid (m : Message) : Prop :=
  m.magic = MESSAGE_MAGIC ∧ 24 ≤ m.length ∧ m.length = 24 + m.data.length

instance (m : Message) : Decidable m.isValid := by
  unfold Message.isValid; infer_instance

/-- The 24 header bytes of `Message::serialize` (memcpy of `MessageHeader`,
little-endian host). -/
def Message.headerBytes (m : Message) : List Nat :=
  leBytes 4 m.magic ++ leBytes 2 m.type ++ leBytes 2 m.pad ++
    leBytes 4 m.length ++ leBytes 4 m.sequence ++ leBytes 8 m.timestamp

/-- Model of `Message::serialize`: the buffer is resized to `header_.length` and filled
with the header followed by the payload; for every message maintained by the
class (`length = 24 + data.size()`) this is exactly header ++ payload. -/
def Message.serialize (m : Message) : List Nat :=
  m.headerBytes ++ m.data

/-- Model of `Message::deserialize(buffer, size)`: fail on a short buffer, parse the
24-byte header, validate the magic, require `24 ≤ length ≤ size`, and copy
`length - 24` payload bytes from offset 24.  Bytes beyond `length` are
ignored. -/
def Message.deserialize (buffer : List Nat) : Option Message :=
  if buffer.length < 24 then none
  else
    let magic := fromLE (buffer.take 4)
    let ty := fromLE ((buffer.drop 4).take 2)
    let pad := fromLE ((buffer.drop 6).take 2)
    let len := fromLE ((buffer.drop 8).take 4)
    let seq := fromLE ((buffer.drop 12).take 4)
    let ts := fromLE ((buffer.drop 16).take 8)
    if magic ≠ MESSAGE_MAGIC then none
    else if len < 24 ∨ buffer.length < len then none
    else some ⟨magic, ty, pad, len, seq, ts, (buffer.drop 24).take (len - 24)⟩

theorem Message.headerBytes_length (m : Message) : m.headerBytes.length = 24 := by
  simp [Message.headerBytes, leBytes_length]

/-- Parsing the serialized form of a well-formed, valid message — with any
trailing bytes appended — recovers the message exactly.  This is the shared
engine behind the round-trip and trailing-garbage theorems. -/
theorem Message.deserialize_serialize_append (m : Message) (hw : m.WF)
    (hv : m.isValid) (extra : List Nat) :
    Message.deserialize (m.serialize ++ extra) = some m := by
  obtain ⟨hmagic, htype, hpad, hlen, hseq, hts, hdata⟩ := hw
  obtain ⟨hm, hle, hlen24⟩ := hv
  have hbuf : m.serialize ++ extra =
      leBytes 4 m.magic ++ (leBytes 2 m.type ++ (leBytes 2 m.pad ++
        (leBytes 4 m.length ++ (leBytes 4 m.sequence ++ (leBytes 8 m.timestamp ++
          (m.data ++ extra)))))) := by
    simp [Message.serialize, Message.headerBytes, List.append_assoc]
  have hlength : (m.serialize ++ extra).length = 24 + m.data.length + extra.length := by
    simp [Message.serialize, Message.headerBytes_length]
    omega
  -- step-by-step parsing of the header chunks
  have h4 : (m.serialize ++ extra).take 4 = leBytes 4 m.magic := by
    rw [hbuf]; exact take_append_chunk _ _ _ (leBytes_length 4 m.magic)
  have d4 : (m.serialize ++ extra).drop 4 =
      leBytes 2 m.type ++ (leBytes 2 m.pad ++ (leBytes 4 m.length ++
        (leBytes 4 m.sequence ++ (leBytes 8 m.timestamp ++ (m.data ++ extra))))) := by
    rw [hbuf]; exact drop_append_chunk _ _ _ (leBytes_length 4 m.magic)
  have h6 : ((m.serialize ++ extra).drop 4).take 2 = leBytes 2 m.type := by
    rw [d4]; exact take_append_chunk _ _ _ (leBytes_length 2 m.type)
  have d6 : (m.serialize ++ extra).drop 6 =
      leBytes 2 m.pad ++ (leBytes 4 m.length ++ (leBytes 4 m.sequence ++
        (leBytes 8 m.timestamp ++ (m.data ++ extra)))) := by
    have : (m.serialize ++ extra).drop 6 = ((m.serialize ++ extra).drop 4).drop 2 := by
      rw [List.drop_drop]
    rw [this, d4]; exact drop_append_chunk _ _ _ (leBytes_length 2 m.type)
  have h8 : ((m.serialize ++ extra).drop 6).take 2 = leBytes 2 m.pad := by
    rw [d6]; exact take_append_chunk _ _ _ (leBytes_length 2 m.pad)
  have d8 : (m.serialize ++ extra).drop 8 =
      leBytes 4 m.length ++ (leBytes 4 m.sequence ++
        (leBytes 8 m.timestamp ++ (m.data ++ extra))) := by
    have : (m.serialize ++ extra).drop 8 = ((m.serialize ++ extra).drop 6).drop 2 := by
      rw [List.drop_drop]
    rw [this, d6]; exact drop_append_chunk _ _ _ (leBytes_length 2 m.pad)
  have h12 : ((m.serialize ++ extra).drop 8).take 4 = leBytes 4 m.length := by
    rw [d8]; exact take_append_chunk _ _ _ (leBytes_length 4 m.length)
  have d12 : (m.serialize ++ extra).drop 12 =
      leBytes 4 m.sequence ++ (leBytes 8 m.timestamp ++ (m.data ++ extra)) := by
    have : (m.serialize ++ extra).drop 12 = ((m.serialize ++ extra).drop 8).drop 4 := by
      rw [List.drop_drop]
    rw [this, d8]; exact drop_append_chunk _ _ _ (leBytes_length 4 m.length)
  have h16 : ((m.serialize ++ extra).drop 12).take 4 = leBytes 4 m.sequence := by
    rw [d12]; exact take_append_chunk _ _ _ (leBytes_length 4 m.sequence)
  have d16 : (m.serialize ++ extra).drop 16 =
      leBytes 8 m.timestamp ++ (m.data ++ extra) := by
    have : (m.serialize ++ extra).drop 16 = ((m.serialize ++ extra).drop 12).drop 4 := by
      rw [List.drop_drop]
    rw [this, d12]; exact drop_append_chunk _ _ _ (leBytes_length 4 m.sequence)
  have h24 : ((m.serialize ++ extra).drop 16).take 8 = leBytes 8 m.timestamp := by
    rw [d16]; exact take_append_chunk _ _ _ (leBytes_length 8 m.timestamp)
  have d24 : (m.serialize ++ extra).drop 24 = m.data ++ extra := by
    have : (m.serialize ++ extra).drop 24 = ((m.serialize ++ extra).drop 16).drop 8 := by
      rw [List.drop_drop]
    rw [this, d16]; exact drop_append_chunk _ _ _ (leBytes_length 8 m.timestamp)
  have hnotshort : ¬ (m.serialize ++ extra).length < 24 := by omega
  have hpayload : ((m.serialize ++ extra).drop 24).take (m.length - 24) = m.data := by
    rw [d24]
    have : m.length - 24 = m.data.length := by omega
    rw [this]; exact take_append_chunk _ _ _ rfl
  rw [Message.deserialize, if_neg hnotshort]
  simp only [h4, h6, h8, h12, h16, h24,
    fromLE_leBytes 4 m.magic (by norm_num at hmagic ⊢; omega),
    fromLE_leBytes 2 m.type (by norm_num at htype ⊢; omega),
    fromLE_leBytes 2 m.pad (by norm_num at hpad ⊢; omega),
    fromLE_leBytes 4 m.length (by norm_num at hlen ⊢; omega),
    fromLE_leBytes 4 m.sequence (by norm_num at hseq ⊢; omega),
    fromLE_leBytes 8 m.timestamp (by norm_num at hts ⊢; omega)]
  rw [if_neg (by simp [hm]), if_neg (by push_neg; omega)]
  rw [hpayload]

/-- Exact characterization of when `Message::deserialize` rejects a buffer:
short buffer, wrong magic, a length field below the 24-byte header size, or a
length field exceeding the buffer size.  There is no other rejection cause —
in particular no fixed maximum-length cap. -/
theorem Message.deserialize_eq_none_iff (buffer : List Nat) :
    Message.deserialize buffer = none ↔
      buffer.length < 24 ∨ fromLE (buffer.take 4) ≠ MESSAGE_MAGIC ∨
        fromLE ((buffer.drop 8).take 4) < 24 ∨
        buffer.length < fromLE ((buffer.drop 8).take 4) := by
  rw [Message.deserialize]
  by_cases hshort : buffer.length < 24
  · simp [hshort]
  · rw [if_neg hshort]
    by_cases hmagic : fromLE (buffer.take 4) ≠ MESSAGE_MAGIC
    · simp [hmagic, hshort]
    · rw [if_neg hmagic]
      by_cases hlen : fromLE ((buffer.drop 8).take 4) < 24 ∨
          buffer.length < fromLE ((buffer.drop 8).take 4)
      · simp [hlen, if_pos hlen]
      · simp [hlen, if_neg hlen, hshort, hmagic]

/-! ## The `NetworkManager.cpp` wire format

`NetworkManager` carries a different `Message` struct (`NetworkManager.h`):
`type : u32`, `size : u32`, `timestamp : u64`, then `size` payload bytes.
There is no magic, no sequence field, and no length validation of any kind on
this path (`NetworkManager::receiveMessage` reads whatever `size` announces).
`AudioClient` and `AudioServer` are built on this format. -/

/-- Tag `MessageType::CONNECT` of `NetworkManager.h` (a `uint32_t` enum). -/
def NM_CONNECT : Nat := 1
/-- Tag `MessageType::DISCONNECT`. -/
def NM_DISCONNECT : Nat := 2
/-- Tag `MessageType::AUDIO_DATA`. -/
def NM_AUDIO_DATA : Nat := 3
/-- Tag `MessageType::CLIENT_CONFIG`. -/
def NM_CLIENT_CONFIG : Nat := 4
/-- Tag `MessageType::CLIENT_READY`. -/
def NM_CLIENT_READY : Nat := 5
/-- Tag `MessageType::HEARTBEAT`. -/
def NM_HEARTBEAT : Nat := 6

/-- The `Message` struct of `NetworkManager.h`.  The `type` is kept as the raw
`uint32_t` tag (the C++ casts arbitrary wire values into the enum). -/
structure NMMessage where
  type : Nat
  size : Nat
  timestamp : Nat
  data : List Nat
deriving DecidableEq, Repr

/-- Model of `NetworkManager::serializeMessage`: 4 bytes type, 4 bytes size, 8 bytes
timestamp, then the payload (the C++ memcpys `message.size` bytes of
`message.data`, which coincide for every message the code builds). -/
def serializeNMMessage (m : NMMessage) : List Nat :=
  leBytes 4 m.type ++ leBytes 4 m.size ++ leBytes 8 m.timestamp ++ m.data

/-- Model of `NetworkManager::deserializeMessage`: 16-byte header, then `size` payload
bytes.  No magic check and no cap — any announced size within the buffer is
accepted. -/
def deserializeNMMessage (buffer : List Nat) : Option NMMessage :=
  if buffer.length < 16 then none
  else
    let ty := fromLE (buffer.take 4)
    let size := fromLE ((buffer.drop 4).take 4)
    let ts := fromLE ((buffer.drop 8).take 8)
    if 0 < size ∧ buffer.length < 16 + size then none
    else some ⟨ty, size, ts, (buffer.drop 16).take size⟩

/-! ## `AudioClient.cpp` — capture-side send path and receive-side dispatch -/

/-- The sequencing-relevant state of `AudioClient`
(`AudioClient.h`): connection flags and the two sequence counters.
`outgoingSequenceNumber_` is initialized to 0 in the constructor. -/
structure ClientState where
  connected : Bool
  audio_active : Bool
  outgoingSequenceNumber : Nat
  incomingSequenceNumber : Nat
deriving DecidableEq, Repr

/-- The `AudioClient` state right after the constructor. -/
def ClientState.init : ClientState :=
  { connected := false, audio_active := false,
    outgoingSequenceNumber := 0, incomingSequenceNumber := 0 }

/-- Model of `AudioClient::onAudioCaptured`: if connected and active, build an
`AUDIO_DATA` message from the raw sample bytes and send it immediately.
The function reads and writes no sequence counter, and the `NetworkManager`
message it builds has no sequence field.  Returns the (unchanged) state and
the message handed to `NetworkManager::sendMessage`, if any. -/
def onAudioCaptured (st : ClientState) (sampleBytes : List Nat) (timestamp : Nat) :
    ClientState × Option NMMessage :=
  if ¬st.connected ∨ ¬st.audio_active then (st, none)
  else
    (st, some { type := NM_AUDIO_DATA, size := sampleBytes.length,
                timestamp := timestamp, data := sampleBytes })

/-- A packet as stored by the `JitterBuffer.h` variant used by `AudioClient`. -/
structure CPacket where
  data : List Nat
  timestamp : Nat
  sequenceNumber : Nat
deriving DecidableEq, Repr

/-- The `AUDIO_DATA` arm of `AudioClient::handleNetworkMessage`: a sequence
number is assigned to the incoming packet at arrival time from
`incomingSequenceNumber_++` (a `uint32_t` post-increment). -/
def clientHandleAudioData (st : ClientState) (msg : NMMessage) :
    ClientState × Option CPacket :=
  if st.audio_active ∧ 0 < msg.size then
    ({ st with incomingSequenceNumber := (st.incomingSequenceNumber + 1) % 2 ^ 32 },
     some { data := msg.data, timestamp := msg.timestamp,
            sequenceNumber := st.incomingSequenceNumber })
  else (st, none)

/-! ## `AudioServer.cpp` — client table and relay -/

/-- Record `ClientInfo` of `AudioServer.h`: socket, identifier, readiness flag and the
client's declared audio format (`int` fields). -/
structure ClientInfo where
  socket_fd : Nat
  id : String
  ready : Bool
  sampleRate : Int
  channels : Int
  bufferSize : Int
deriving DecidableEq, Repr

/-- Observable actions of the server's message handler: a framed write to a
socket, or an update of the client table. -/
inductive ServerEffect where
  | send (socket : Nat) (bytes : List Nat)
deriving DecidableEq, Repr

/-- Reinterpret 4 little-endian bytes as a two's-complement `int32_t`
(the `reinterpret_cast<const AudioConfig*>` read). -/
def toInt32 (n : Nat) : Int :=
  if n < 2 ^ 31 then (n : Int) else (n : Int) - 2 ^ 32

/-- Model of `AudioServer::addClient`: push a record with `ready = false` and the
server's default format (server sample rate, server channels, 256 frames). -/
def addClient (serverRate serverChannels : Int) (clients : List ClientInfo)
    (socket_fd : Nat) : List ClientInfo :=
  clients ++ [{ socket_fd := socket_fd, id := "client_" ++ toString socket_fd,
                ready := false, sampleRate := serverRate,
                channels := serverChannels, bufferSize := 256 }]

/-- Model of `AudioServer::removeClient`: erase every record with this socket. -/
def removeClient (clients : List ClientInfo) (socket_fd : Nat) : List ClientInfo :=
  clients.filter (fun c => c.socket_fd ≠ socket_fd)

/-- Update the first record matching the socket (`std::find_if`). -/
def updateFirstClient (clients : List ClientInfo) (socket_fd : Nat)
    (f : ClientInfo → ClientInfo) : List ClientInfo :=
  match clients with
  | [] => []
  | c :: rest =>
    if c.socket_fd = socket_fd then f c :: rest
    else c :: updateFirstClient rest socket_fd f

/-- The `CLIENT_CONFIG` field update: parse the 12-byte `AudioConfig`
payload (three little-endian `int32_t`) into the record. -/
def applyConfig (data : List Nat) (c : ClientInfo) : ClientInfo :=
  { c with
    sampleRate := toInt32 (fromLE (data.take 4)),
    channels := toInt32 (fromLE ((data.drop 4).take 4)),
    bufferSize := toInt32 (fromLE ((data.drop 8).take 4)) }

/-- Model of `AudioServer::broadcastAudioToOthers`: walk the client table in order and
write the serialized message to every record whose socket differs from the
sender's and whose `ready` flag is set. -/
def broadcastAudioToOthers (clients : List ClientInfo) (msg : NMMessage)
    (sender_socket : Nat) : List ServerEffect :=
  match clients with
  | [] => []
  | c :: rest =>
    if c.socket_fd ≠ sender_socket ∧ c.ready then
      ServerEffect.send c.socket_fd (serializeNMMessage msg) ::
        broadcastAudioToOthers rest msg sender_socket
    else broadcastAudioToOthers rest msg sender_socket

/-- Model of `AudioServer::handleClientMessage`: dispatch on the message type.  The
model returns the new client table and the network writes performed; the
logging, recording and server-local jitter-buffer side paths touch neither.
`CLIENT_CONFIG` updates the record only when the payload is at least
`sizeof(AudioConfig)` = 12 bytes; otherwise the message is silently ignored. -/
def handleClientMessage (serverRate serverChannels : Int)
    (clients : List ClientInfo) (msg : NMMessage) (client_socket : Nat) :
    List ClientInfo × List ServerEffect :=
  if msg.type = NM_CONNECT then
    (addClient serverRate serverChannels clients client_socket, [])
  else if msg.type = NM_DISCONNECT then
    (removeClient clients client_socket, [])
  else if msg.type = NM_CLIENT_CONFIG then
    (if 12 ≤ msg.size then
       updateFirstClient clients client_socket (applyConfig msg.data)
     else clients, [])
  else if msg.type = NM_CLIENT_READY then
    (updateFirstClient clients client_socket (fun c => { c with ready := true }), [])
  else if msg.type = NM_AUDIO_DATA then
    (clients, broadcastAudioToOthers clients msg client_socket)
  else if msg.type = NM_HEARTBEAT then
    (clients, [ServerEffect.send client_socket (serializeNMMessage msg)])
  else (clients, [])

/-! ## `RenderSource.cpp` — the sequence-indexed jitter buffer

`RenderSource` keeps `std::map<uint32_t, ReceivedAudioPacket> jitterBuffer_`
(ascending by key), an `expectedSequenceNumber_` (`uint32_t`, initialized
to 1), a `jitterBufferReady_` flag and statistics counters.  The map is
modelled as a key-sorted association list.  The eviction condition
`size() * packetIntervalMs_ > adaptiveMaxBufferMs_` uses
`packetIntervalMs_ = framesPerBuffer / sampleRate * 1000` (a `double`); the
model compares with exact rational arithmetic by cross-multiplying with the
sample rate: `size * (1000 * framesPerBuffer) > maxMs * sampleRate`. -/

/-- Struct `ReceivedAudioPacket` (fields relevant to sequencing; float samples are
abstracted to integers, silence being zeros). -/
structure ReceivedAudioPacket where
  sequenceNumber : Nat
  timestamp : Nat
  audioData : List Int
deriving DecidableEq, Repr

/-- The jitter-buffer part of the `RenderSource` state. -/
structure RSState where
  jitterBuffer : List (Nat × ReceivedAudioPacket)
  expectedSequenceNumber : Nat
  jitterBufferReady : Bool
  totalPacketsDropped : Nat
  framesPerBuffer : Nat
  sampleRate : Nat
  adaptiveMaxBufferMs : Nat
deriving DecidableEq, Repr

/-- Check `jitterBuffer_.find(seq) != jitterBuffer_.end()`. -/
def mapContains (store : List (Nat × ReceivedAudioPacket)) (k : Nat) : Bool :=
  store.any (fun e => e.1 == k)

/-- Ordered `std::map` insertion of a fresh key into the key-ascending entry list. -/
def insertSorted (k : Nat) (p : ReceivedAudioPacket) :
    List (Nat × ReceivedAudioPacket) → List (Nat × ReceivedAudioPacket)
  | [] => [(k, p)]
  | e :: rest => if k < e.1 then (k, p) :: e :: rest else e :: insertSorted k p rest

/-- Model of `std::map::erase` of a key (keys are unique, so removing the first
occurrence matches). -/
def eraseKey (k : Nat) :
    List (Nat × ReceivedAudioPacket) → List (Nat × ReceivedAudioPacket)
  | [] => []
  | e :: rest => if e.1 == k then rest else e :: eraseKey k rest

/-- The `while (jitterBuffer_.size() * packetIntervalMs_ > adaptiveMaxBufferMs_)`
loop of `RenderSource::addToJitterBuffer`: repeatedly erase `begin()` (the
lowest key) and increment `totalPacketsDropped_`. -/
def evictLoop (f r maxMs : Nat) :
    List (Nat × ReceivedAudioPacket) → Nat → List (Nat × ReceivedAudioPacket) × Nat
  | [], dropped => ([], dropped)
  | e :: rest, dropped =>
    if maxMs * r < (e :: rest).length * (1000 * f) then
      evictLoop f r maxMs rest (dropped + 1)
    else (e :: rest, dropped)

/-- Model of `RenderSource::addToJitterBuffer`: drop duplicates (key already present),
otherwise insert keyed by the packet's sequence number and run the size-limit
eviction loop. -/
def addToJitterBuffer (p : ReceivedAudioPacket) (s : RSState) : RSState :=
  if mapContains s.jitterBuffer p.sequenceNumber then s
  else
    let store := insertSorted p.sequenceNumber p s.jitterBuffer
    let result := evictLoop s.framesPerBuffer s.sampleRate s.adaptiveMaxBufferMs
      store s.totalPacketsDropped
    { s with jitterBuffer := result.1, totalPacketsDropped := result.2 }

/-- Model of `RenderSource::getFromJitterBuffer`: nothing before the pre-roll flag is
set or from an empty store; otherwise return and erase exactly the entry at
`expectedSequenceNumber_`, then post-increment the `uint32_t` counter. -/
def getFromJitterBuffer (s : RSState) : RSState × Option ReceivedAudioPacket :=
  if ¬s.jitterBufferReady ∨ s.jitterBuffer.isEmpty then (s, none)
  else
    match s.jitterBuffer.find? (fun e => e.1 == s.expectedSequenceNumber) with
    | some e =>
      ({ s with jitterBuffer := eraseKey s.expectedSequenceNumber s.jitterBuffer,
                expectedSequenceNumber := (s.expectedSequenceNumber + 1) % 2 ^ 32 },
       some e.2)
    | none => (s, none)

/-- The pre-roll step of `RenderSource::jitterBufferWorker`: the ready flag is
set as soon as the buffer is non-empty. -/
def checkReadyOp (s : RSState) : RSState :=
  if ¬s.jitterBufferReady ∧ ¬s.jitterBuffer.isEmpty then
    { s with jitterBufferReady := true }
  else s

/-- One interaction with the jitter buffer: a reception-worker insertion, a
drain, or the worker's readiness check. -/
inductive JBOp where
  | add (p : ReceivedAudioPacket)
  | drain
  | checkReady
deriving DecidableEq, Repr

/-- One step; drains report the packet they returned. -/
def stepJB (s : RSState) : JBOp → RSState × Option ReceivedAudioPacket
  | .add p => (addToJitterBuffer p s, none)
  | .drain => getFromJitterBuffer s
  | .checkReady => (checkReadyOp s, none)

/-- Run a list of operations, collecting the drained packets in order. -/
def runJB (s : RSState) : List JBOp → RSState × List ReceivedAudioPacket
  | [] => (s, [])
  | op :: rest =>
    let step := stepJB s op
    let tail := runJB step.1 rest
    (tail.1, match step.2 with | some p => p :: tail.2 | none => tail.2)

/-- The state set up by the `RenderSource` constructor /
`resetJitterBuffer`: empty store, `expectedSequenceNumber_ = 1`, flag down,
counters zero, with the configured frames-per-buffer, sample rate and maximum
buffer milliseconds. -/
def initRS (f r maxMs : Nat) : RSState :=
  { jitterBuffer := [], expectedSequenceNumber := 1, jitterBufferReady := false,
    totalPacketsDropped := 0, framesPerBuffer := f, sampleRate := r,
    adaptiveMaxBufferMs := maxMs }

/-- Structural invariant of the store: entries are strictly ascending by key
(`std::map`) and each packet is keyed by its own sequence number (insertion
uses `jitterBuffer_[packet.sequenceNumber] = packet`). -/
def RSState.WF (s : RSState) : Prop :=
  List.Pairwise (fun a b => a.1 < b.1) s.jitterBuffer ∧
    ∀ e ∈ s.jitterBuffer, e.2.sequenceNumber = e.1

instance (s : RSState) : Decidable s.WF := by
  unfold RSState.WF; infer_instance

theorem mem_insertSorted {k : Nat} {p : ReceivedAudioPacket}
    {l : List (Nat × ReceivedAudioPacket)} {x : Nat × ReceivedAudioPacket} :
    x ∈ insertSorted k p l ↔ x = (k, p) ∨ x ∈ l := by
  induction l with
  | nil => simp [insertSorted]
  | cons e rest ih =>
    by_cases h : k < e.1
    · simp [insertSorted, h]
    · simp [insertSorted, h, ih]; tauto

theorem insertSorted_length (k : Nat) (p : ReceivedAudioPacket)
    (l : List (Nat × ReceivedAudioPacket)) :
    (insertSorted k p l).length = l.length + 1 := by
  induction l with
  | nil => rfl
  | cons e rest ih =>
    by_cases h : k < e.1
    · simp [insertSorted, h]
    · simp [insertSorted, h, ih]

theorem insertSorted_pairwise {k : Nat} {p : ReceivedAudioPacket}
    {l : List (Nat × ReceivedAudioPacket)}
    (hl : List.Pairwise (fun a b => a.1 < b.1) l) (hk : ∀ e ∈ l, e.1 ≠ k) :
    List.Pairwise (fun a b => a.1 < b.1) (insertSorted k p l) := by
  induction l with
  | nil => simp [insertSorted]
  | cons e rest ih =>
    rcases List.pairwise_cons.mp hl with ⟨he, hrest⟩
    by_cases h : k < e.1
    · rw [insertSorted, if_pos h]
      refine List.pairwise_cons.mpr ⟨?_, hl⟩
      intro y hy
      rcases List.mem_cons.mp hy with rfl | hy
      · exact h
      · exact h.trans (he y hy)
    · rw [insertSorted, if_neg h]
      refine List.pairwise_cons.mpr ⟨?_, ih hrest (fun x hx => hk x (List.mem_cons_of_mem e hx))⟩
      intro y hy
      rcases mem_insertSorted.mp hy with rfl | hy
      · have : e.1 ≠ k := hk e (List.mem_cons_self e rest)
        omega
      · exact he y hy

theorem eraseKey_sublist (k : Nat) (l : List (Nat × ReceivedAudioPacket)) :
    List.Sublist (eraseKey k l) l := by
  induction l with
  | nil => simp [eraseKey]
  | cons e rest ih =>
    by_cases h : e.1 == k
    · rw [eraseKey, if_pos h]
      exact (List.Sublist.refl rest).cons e
    · rw [eraseKey, if_neg h]
      exact ih.cons₂ e

theorem evictLoop_suffix (f r maxMs : Nat) (l : List (Nat × ReceivedAudioPacket))
    (d : Nat) : (evictLoop f r maxMs l d).1 <:+ l := by
  induction l generalizing d with
  | nil => simp [evictLoop]
  | cons e rest ih =>
    by_cases h : maxMs * r < (e :: rest).length * (1000 * f)
    · rw [evictLoop, if_pos h]
      exact (ih (d + 1)).trans (List.suffix_cons e rest)
    · rw [evictLoop, if_neg h]

theorem evictLoop_bound (f r maxMs : Nat) (l : List (Nat × ReceivedAudioPacket))
    (d : Nat) : (evictLoop f r maxMs l d).1.length * (1000 * f) ≤ maxMs * r := by
  induction l generalizing d with
  | nil => simp [evictLoop]
  | cons e rest ih =>
    by_cases h : maxMs * r < (e :: rest).length * (1000 * f)
    · rw [evictLoop, if_pos h]; exact ih (d + 1)
    · rw [evictLoop, if_neg h]
      show (e :: rest).length * (1000 * f) ≤ maxMs * r
      omega

theorem evictLoop_dropped (f r maxMs : Nat) (l : List (Nat × ReceivedAudioPacket))
    (d : Nat) :
    (evictLoop f r maxMs l d).2 = d + (l.length - (evictLoop f r maxMs l d).1.length) := by
  induction l generalizing d with
  | nil => simp [evictLoop]
  | cons e rest ih =>
    by_cases h : maxMs * r < (e :: rest).length * (1000 * f)
    · have hstep : evictLoop f r maxMs (e :: rest) d = evictLoop f r maxMs rest (d + 1) := by
        rw [evictLoop, if_pos h]
      have hle := (evictLoop_suffix f r maxMs rest (d + 1)).length_le
      rw [hstep, ih (d + 1)]
      simp only [List.length_cons]
      omega
    · have hstep : evictLoop f r maxMs (e :: rest) d = (e :: rest, d) := by
        rw [evictLoop, if_neg h]
      rw [hstep]
      simp

/-- When the inserted size stays within the limit the eviction loop is a
no-op. -/
theorem evictLoop_no_evict (f r maxMs : Nat) (l : List (Nat × ReceivedAudioPacket))
    (d : Nat) (h : ¬ maxMs * r < l.length * (1000 * f)) :
    evictLoop f r maxMs l d = (l, d) := by
  cases l with
  | nil => rfl
  | cons e rest => rw [evictLoop, if_neg h]

theorem addToJitterBuffer_expected (p : ReceivedAudioPacket) (s : RSState) :
    (addToJitterBuffer p s).expectedSequenceNumber = s.expectedSequenceNumber := by
  by_cases h : mapContains s.jitterBuffer p.sequenceNumber <;>
    simp [addToJitterBuffer, h]

theorem addToJitterBuffer_config (p : ReceivedAudioPacket) (s : RSState) :
    (addToJitterBuffer p s).framesPerBuffer = s.framesPerBuffer ∧
      (addToJitterBuffer p s).sampleRate = s.sampleRate ∧
      (addToJitterBuffer p s).adaptiveMaxBufferMs = s.adaptiveMaxBufferMs ∧
      (addToJitterBuffer p s).jitterBufferReady = s.jitterBufferReady := by
  by_cases h : mapContains s.jitterBuffer p.sequenceNumber <;>
    simp [addToJitterBuffer, h]

theorem addToJitterBuffer_WF {p : ReceivedAudioPacket} {s : RSState} (hs : s.WF) :
    (addToJitterBuffer p s).WF := by
  by_cases h : mapContains s.jitterBuffer p.sequenceNumber
  · simpa [addToJitterBuffer, h] using hs
  · have hfresh : ∀ e ∈ s.jitterBuffer, e.1 ≠ p.sequenceNumber := by
      intro e he heq
      exact h (List.any_eq_true.mpr ⟨e, he, by simp [heq]⟩)
    have hpw : List.Pairwise (fun a b => a.1 < b.1)
        (insertSorted p.sequenceNumber p s.jitterBuffer) :=
      insertSorted_pairwise hs.1 hfresh
    have hkey : ∀ e ∈ insertSorted p.sequenceNumber p s.jitterBuffer,
        e.2.sequenceNumber = e.1 := by
      intro e he
      rcases mem_insertSorted.mp he with rfl | he
      · rfl
      · exact hs.2 e he
    have hsub := (evictLoop_suffix s.framesPerBuffer s.sampleRate s.adaptiveMaxBufferMs
      (insertSorted p.sequenceNumber p s.jitterBuffer) s.totalPacketsDropped).sublist
    constructor
    · simpa [addToJitterBuffer, h] using hpw.sublist hsub
    · intro e he
      simp only [addToJitterBuffer, h, Bool.false_eq_true, if_false] at he
      exact hkey e (hsub.mem he)

/-- Full case analysis of one drain call. -/
theorem getFromJitterBuffer_cases (s : RSState) :
    ((getFromJitterBuffer s).2 = none ∧ (getFromJitterBuffer s).1 = s) ∨
    (∃ e, s.jitterBuffer.find? (fun x => x.1 == s.expectedSequenceNumber) = some e ∧
      (getFromJitterBuffer s).2 = some e.2 ∧
      (getFromJitterBuffer s).1 = { s with
        jitterBuffer := eraseKey s.expectedSequenceNumber s.jitterBuffer,
        expectedSequenceNumber := (s.expectedSequenceNumber + 1) % 2 ^ 32 }) := by
  by_cases hg : ¬s.jitterBufferReady ∨ s.jitterBuffer.isEmpty
  · left
    have h : getFromJitterBuffer s = (s, none) := by
      rw [getFromJitterBuffer, if_pos hg]
    rw [h]; exact ⟨rfl, rfl⟩
  · cases hfind : s.jitterBuffer.find? (fun x => x.1 == s.expectedSequenceNumber) with
    | none =>
      left
      have h : getFromJitterBuffer s = (s, none) := by
        rw [getFromJitterBuffer, if_neg hg, hfind]
      rw [h]; exact ⟨rfl, rfl⟩
    | some e =>
      right
      have h : getFromJitterBuffer s =
          ({ s with jitterBuffer := eraseKey s.expectedSequenceNumber s.jitterBuffer,
                    expectedSequenceNumber := (s.expectedSequenceNumber + 1) % 2 ^ 32 },
           some e.2) := by
        rw [getFromJitterBuffer, if_neg hg, hfind]
      rw [h]
      exact ⟨e, rfl, rfl, rfl⟩

/-- One step preserves the structural invariant and the configuration; a drain
that yields a packet returns exactly the expected sequence and post-increments
it, and a silent step leaves the expected sequence unchanged. -/
theorem stepJB_spec (s : RSState) (op : JBOp) (hs : s.WF) :
    (stepJB s op).1.WF ∧
    (stepJB s op).1.framesPerBuffer = s.framesPerBuffer ∧
    (stepJB s op).1.sampleRate = s.sampleRate ∧
    (stepJB s op).1.adaptiveMaxBufferMs = s.adaptiveMaxBufferMs ∧
    (∀ p, (stepJB s op).2 = some p →
      p.sequenceNumber = s.expectedSequenceNumber ∧
      (stepJB s op).1.expectedSequenceNumber = (s.expectedSequenceNumber + 1) % 2 ^ 32) ∧
    ((stepJB s op).2 = none →
      (stepJB s op).1.expectedSequenceNumber = s.expectedSequenceNumber) := by
  cases op with
  | add p =>
    refine ⟨addToJitterBuffer_WF hs, (addToJitterBuffer_config p s).1,
      (addToJitterBuffer_config p s).2.1, (addToJitterBuffer_config p s).2.2.1,
      ?_, ?_⟩
    · intro q hq; exact Option.noConfusion hq
    · intro _; exact addToJitterBuffer_expected p s
  | checkReady =>
    by_cases h : ¬s.jitterBufferReady ∧ ¬s.jitterBuffer.isEmpty
    · have he : stepJB s JBOp.checkReady = ({ s with jitterBufferReady := true }, none) := by
        show (checkReadyOp s, none) = _
        rw [checkReadyOp, if_pos h]
      rw [he]
      exact ⟨⟨hs.1, hs.2⟩, rfl, rfl, rfl, fun q hq => Option.noConfusion hq, fun _ => rfl⟩
    · have he : stepJB s JBOp.checkReady = (s, none) := by
        show (checkReadyOp s, none) = _
        rw [checkReadyOp, if_neg h]
      rw [he]
      exact ⟨hs, rfl, rfl, rfl, fun q hq => Option.noConfusion hq, fun _ => rfl⟩
  | drain =>
    have hd : stepJB s JBOp.drain = getFromJitterBuffer s := rfl
    rcases getFromJitterBuffer_cases s with ⟨hnone, heq⟩ | ⟨e, hfind, hsome, heq⟩
    · rw [hd, heq]
      refine ⟨hs, rfl, rfl, rfl, ?_, fun _ => rfl⟩
      intro q hq
      rw [hnone] at hq
      exact Option.noConfusion hq
    · have he1 : e.1 = s.expectedSequenceNumber := by
        simpa using List.find?_some hfind
      have hemem : e ∈ s.jitterBuffer := List.mem_of_find?_eq_some hfind
      rw [hd]
      refine ⟨?_, by rw [heq], by rw [heq], by rw [heq], ?_, ?_⟩
      · rw [heq]
        exact ⟨hs.1.sublist (eraseKey_sublist _ _),
          fun x hx => hs.2 x ((eraseKey_sublist _ _).mem hx)⟩
      · intro q hq
        rw [hsome] at hq
        injection hq with h2
        subst h2
        exact ⟨(hs.2 e hemem).trans he1, by rw [heq]⟩
      · intro hq
        rw [hsome] at hq
        exact Option.noConfusion hq

/-- Unfolding one step of `runJB`. -/
theorem runJB_cons (s : RSState) (op : JBOp) (rest : List JBOp) :
    runJB s (op :: rest) =
      ((runJB (stepJB s op).1 rest).1,
        match (stepJB s op).2 with
        | some p => p :: (runJB (stepJB s op).1 rest).2
        | none => (runJB (stepJB s op).1 rest).2) := rfl

/-- Over any run short enough for the 32-bit expected counter not to wrap,
the invariant holds, the expected counter never decreases, the drained
sequence numbers are strictly increasing, and every drained sequence is at
least the starting expected sequence. -/
theorem runJB_spec (ops : List JBOp) : ∀ (s : RSState), s.WF →
    s.expectedSequenceNumber + ops.length < 2 ^ 32 →
    (runJB s ops).1.WF ∧
    s.expectedSequenceNumber ≤ (runJB s ops).1.expectedSequenceNumber ∧
    List.Pairwise (· < ·) ((runJB s ops).2.map ReceivedAudioPacket.sequenceNumber) ∧
    (∀ q ∈ (runJB s ops).2, s.expectedSequenceNumber ≤ q.sequenceNumber) := by
  induction ops with
  | nil =>
    intro s hs _
    exact ⟨hs, le_refl _, by simp [runJB], by simp [runJB]⟩
  | cons op rest ih =>
    intro s hs hlen
    obtain ⟨hwf1, _, _, _, hsome, hnone⟩ := stepJB_spec s op hs
    rw [runJB_cons]
    cases hout : (stepJB s op).2 with
    | none =>
      have hexp := hnone hout
      have hlen1 : (stepJB s op).1.expectedSequenceNumber + rest.length < 2 ^ 32 := by
        rw [hexp]; simp only [List.length_cons] at hlen; omega
      obtain ⟨ihwf, ihmono, ihpw, ihge⟩ := ih (stepJB s op).1 hwf1 hlen1
      dsimp only
      exact ⟨ihwf, hexp ▸ ihmono, ihpw, fun q hq => hexp ▸ ihge q hq⟩
    | some p =>
      obtain ⟨hpseq, hexp⟩ := hsome p hout
      have hmod : (s.expectedSequenceNumber + 1) % 2 ^ 32 = s.expectedSequenceNumber + 1 := by
        apply Nat.mod_eq_of_lt
        simp only [List.length_cons] at hlen; omega
      rw [hmod] at hexp
      have hlen1 : (stepJB s op).1.expectedSequenceNumber + rest.length < 2 ^ 32 := by
        rw [hexp]; simp only [List.length_cons] at hlen; omega
      obtain ⟨ihwf, ihmono, ihpw, ihge⟩ := ih (stepJB s op).1 hwf1 hlen1
      dsimp only
      refine ⟨ihwf, ?_, ?_, ?_⟩
      · omega
      · simp only [List.map_cons]
        refine List.pairwise_cons.mpr ⟨?_, ihpw⟩
        intro x hx
        rcases List.mem_map.mp hx with ⟨q, hq, rfl⟩
        have hge := ihge q hq
        omega
      · intro q hq
        rcases List.mem_cons.mp hq with rfl | hq
        · omega
        · have hge := ihge q hq
          omega

/-- The configuration fields are never touched by jitter-buffer operations. -/
theorem stepJB_config (s : RSState) (op : JBOp) :
    (stepJB s op).1.framesPerBuffer = s.framesPerBuffer ∧
    (stepJB s op).1.sampleRate = s.sampleRate ∧
    (stepJB s op).1.adaptiveMaxBufferMs = s.adaptiveMaxBufferMs := by
  cases op with
  | add p =>
    exact ⟨(addToJitterBuffer_config p s).1, (addToJitterBuffer_config p s).2.1,
      (addToJitterBuffer_config p s).2.2.1⟩
  | checkReady =>
    by_cases h : ¬s.jitterBufferReady ∧ ¬s.jitterBuffer.isEmpty
    · have he : stepJB s JBOp.checkReady = ({ s with jitterBufferReady := true }, none) := by
        show (checkReadyOp s, none) = _
        rw [checkReadyOp, if_pos h]
      rw [he]; exact ⟨rfl, rfl, rfl⟩
    · have he : stepJB s JBOp.checkReady = (s, none) := by
        show (checkReadyOp s, none) = _
        rw [checkReadyOp, if_neg h]
      rw [he]; exact ⟨rfl, rfl, rfl⟩
  | drain =>
    have hd : stepJB s JBOp.drain = getFromJitterBuffer s := rfl
    rcases getFromJitterBuffer_cases s with ⟨_, heq⟩ | ⟨e, _, _, heq⟩ <;>
      rw [hd, heq] <;> exact ⟨rfl, rfl, rfl⟩

/-- After any insertion the eviction loop has enforced the size limit
(`size · packet_interval ≤ max`, cross-multiplied by the sample rate). -/
theorem addToJitterBuffer_bound (p : ReceivedAudioPacket) (s : RSState)
    (h : s.jitterBuffer.length * (1000 * s.framesPerBuffer) ≤
      s.adaptiveMaxBufferMs * s.sampleRate) :
    (addToJitterBuffer p s).jitterBuffer.length * (1000 * s.framesPerBuffer) ≤
      s.adaptiveMaxBufferMs * s.sampleRate := by
  by_cases hc : mapContains s.jitterBuffer p.sequenceNumber
  · simpa [addToJitterBuffer, hc] using h
  · have hb := evictLoop_bound s.framesPerBuffer s.sampleRate s.adaptiveMaxBufferMs
      (insertSorted p.sequenceNumber p s.jitterBuffer) s.totalPacketsDropped
    simpa [addToJitterBuffer, hc] using hb

/-- One step preserves the size limit. -/
theorem stepJB_bound (s : RSState) (op : JBOp)
    (h : s.jitterBuffer.length * (1000 * s.framesPerBuffer) ≤
      s.adaptiveMaxBufferMs * s.sampleRate) :
    (stepJB s op).1.jitterBuffer.length * (1000 * (stepJB s op).1.framesPerBuffer) ≤
      (stepJB s op).1.adaptiveMaxBufferMs * (stepJB s op).1.sampleRate := by
  obtain ⟨hf, hr, hm⟩ := stepJB_config s op
  rw [hf, hr, hm]
  cases op with
  | add p => exact addToJitterBuffer_bound p s h
  | checkReady =>
    by_cases hrd : ¬s.jitterBufferReady ∧ ¬s.jitterBuffer.isEmpty
    · have he : stepJB s JBOp.checkReady = ({ s with jitterBufferReady := true }, none) := by
        show (checkReadyOp s, none) = _
        rw [checkReadyOp, if_pos hrd]
      rw [he]; exact h
    · have he : stepJB s JBOp.checkReady = (s, none) := by
        show (checkReadyOp s, none) = _
        rw [checkReadyOp, if_neg hrd]
      rw [he]; exact h
  | drain =>
    have hd : stepJB s JBOp.drain = getFromJitterBuffer s := rfl
    rcases getFromJitterBuffer_cases s with ⟨_, heq⟩ | ⟨e, _, _, heq⟩
    · rw [hd, heq]; exact h
    · rw [hd, heq]
      have hle : (eraseKey s.expectedSequenceNumber s.jitterBuffer).length ≤
          s.jitterBuffer.length := (eraseKey_sublist _ _).length_le
      calc (eraseKey s.expectedSequenceNumber s.jitterBuffer).length *
            (1000 * s.framesPerBuffer)
          ≤ s.jitterBuffer.length * (1000 * s.framesPerBuffer) :=
            Nat.mul_le_mul_right _ hle
        _ ≤ s.adaptiveMaxBufferMs * s.sampleRate := h

/-- A run preserves the size limit and the configuration. -/
theorem runJB_bound (ops : List JBOp) : ∀ s : RSState,
    s.jitterBuffer.length * (1000 * s.framesPerBuffer) ≤
      s.adaptiveMaxBufferMs * s.sampleRate →
    (runJB s ops).1.jitterBuffer.length * (1000 * s.framesPerBuffer) ≤
      s.adaptiveMaxBufferMs * s.sampleRate ∧
    (runJB s ops).1.framesPerBuffer = s.framesPerBuffer ∧
    (runJB s ops).1.sampleRate = s.sampleRate ∧
    (runJB s ops).1.adaptiveMaxBufferMs = s.adaptiveMaxBufferMs := by
  induction ops with
  | nil => intro s h; exact ⟨h, rfl, rfl, rfl⟩
  | cons op rest ih =>
    intro s h
    obtain ⟨hf, hr, hm⟩ := stepJB_config s op
    have h1 : (stepJB s op).1.jitterBuffer.length *
        (1000 * (stepJB s op).1.framesPerBuffer) ≤
        (stepJB s op).1.adaptiveMaxBufferMs * (stepJB s op).1.sampleRate :=
      stepJB_bound s op h
    obtain ⟨ihb, ihf, ihr, ihm⟩ := ih (stepJB s op).1 h1
    rw [runJB_cons]
    dsimp only
    refine ⟨?_, ?_, ?_, ?_⟩
    · rw [hf, hr, hm] at ihb; exact ihb
    · rw [hf] at ihf; exact ihf
    · rw [hr] at ihr; exact ihr
    · rw [hm] at ihm; exact ihm

/-- The freshly constructed / reset jitter buffer satisfies the invariant. -/
theorem initRS_WF (f r maxMs : Nat) : (initRS f r maxMs).WF :=
  ⟨List.Pairwise.nil, fun e he => absurd he (List.not_mem_nil e)⟩

/-- The packet capacity the spec attributes to the jitter buffer:
`⌈max_ms / packet_interval_ms⌉` with `packet_interval_ms =
1000 · framesPerBuffer / sampleRate`, i.e. `⌈max · rate / (1000 · frames)⌉`. -/
def jitterCapacity (f r maxMs : Nat) : Nat :=
  (maxMs * r + (1000 * f) - 1) / (1000 * f)

/-- Decoding the `NetworkManager` wire form recovers the message: this path
accepts every frame whose announced size fits the buffer — there is no magic
and no maximum-size cap on it. -/
theorem deserializeNM_serializeNM (m : NMMessage) (h1 : m.type < 2 ^ 32)
    (h2 : m.size < 2 ^ 32) (h3 : m.timestamp < 2 ^ 64) (h4 : m.size = m.data.length) :
    deserializeNMMessage (serializeNMMessage m) = some m := by
  have hbuf : serializeNMMessage m =
      leBytes 4 m.type ++ (leBytes 4 m.size ++ (leBytes 8 m.timestamp ++ m.data)) := by
    simp [serializeNMMessage, List.append_assoc]
  have hlength : (serializeNMMessage m).length = 16 + m.data.length := by
    simp [serializeNMMessage, leBytes_length]
    omega
  have ht4 : (serializeNMMessage m).take 4 = leBytes 4 m.type := by
    rw [hbuf]; exact take_append_chunk _ _ _ (leBytes_length 4 m.type)
  have hd4 : (serializeNMMessage m).drop 4 =
      leBytes 4 m.size ++ (leBytes 8 m.timestamp ++ m.data) := by
    rw [hbuf]; exact drop_append_chunk _ _ _ (leBytes_length 4 m.type)
  have ht8 : ((serializeNMMessage m).drop 4).take 4 = leBytes 4 m.size := by
    rw [hd4]; exact take_append_chunk _ _ _ (leBytes_length 4 m.size)
  have hd8 : (serializeNMMessage m).drop 8 = leBytes 8 m.timestamp ++ m.data := by
    have : (serializeNMMessage m).drop 8 = ((serializeNMMessage m).drop 4).drop 4 := by
      rw [List.drop_drop]
    rw [this, hd4]; exact drop_append_chunk _ _ _ (leBytes_length 4 m.size)
  have ht16 : ((serializeNMMessage m).drop 8).take 8 = leBytes 8 m.timestamp := by
    rw [hd8]; exact take_append_chunk _ _ _ (leBytes_length 8 m.timestamp)
  have hd16 : (serializeNMMessage m).drop 16 = m.data := by
    have : (serializeNMMessage m).drop 16 = ((serializeNMMessage m).drop 8).drop 8 := by
      rw [List.drop_drop]
    rw [this, hd8]; exact drop_append_chunk _ _ _ (leBytes_length 8 m.timestamp)
  have hnotshort : ¬ (serializeNMMessage m).length < 16 := by omega
  rw [deserializeNMMessage, if_neg hnotshort]
  simp only [ht4, ht8, ht16,
    fromLE_leBytes 4 m.type (by norm_num at h1 ⊢; omega),
    fromLE_leBytes 4 m.size (by norm_num at h2 ⊢; omega),
    fromLE_leBytes 8 m.timestamp (by norm_num at h3 ⊢; omega)]
  rw [if_neg (by push_neg; intro _; omega)]
  rw [hd16]
  have htake : m.data.take m.size = m.data := by
    rw [h4]; exact List.take_length m.data
  rw [htake]

/-- The relay loop sends exactly to the ready clients other than the sender,
each receiving the same serialized bytes. -/
theorem broadcastAudioToOthers_eq (clients : List ClientInfo) (msg : NMMessage)
    (sender : Nat) :
    broadcastAudioToOthers clients msg sender =
      (clients.filter (fun c => decide (c.socket_fd ≠ sender) && c.ready)).map
        (fun c => ServerEffect.send c.socket_fd (serializeNMMessage msg)) := by
  induction clients with
  | nil => rfl
  | cons c rest ih =>
    by_cases hs : c.socket_fd = sender
    · simp [broadcastAudioToOthers, List.filter_cons, hs, ih]
    · by_cases hr : c.ready
      · simp [broadcastAudioToOthers, List.filter_cons, hs, hr, ih]
      · simp [broadcastAudioToOthers, List.filter_cons, hs, hr, ih]

/-! ## Claim theorems -/

/-- A concrete valid message used by witnesses: an `AUDIO_DATA` frame with a
4-byte payload. -/
def sampleMessage : Message :=
  { magic := MESSAGE_MAGIC, type := 1, pad := 0, length := 28, sequence := 7,
    timestamp := 123456, data := [10, 20, 30, 40] }

/-- A frame whose length field (70000) far exceeds the 65536 cap the spec
names for `MAX_MESSAGE`. -/
def oversizedMessage : Message :=
  { magic := MESSAGE_MAGIC, type := 2, pad := 0, length := 70000, sequence := 0,
    timestamp := 0, data := List.replicate 69976 0 }

/-- A concrete `NetworkManager` message used by witnesses. -/
def sampleNM : NMMessage := { type := 3, size := 4, timestamp := 5, data := [9, 8, 7, 6] }

/-- Claim C1: For every message with a valid type (any in-memory message, in
fact), deserializing the bytes produced by serializing it yields the message
back: all header fields identical and the payload byte-exact. -/
theorem claim_C1_encode_decode_roundtrip (m : Message) (hw : m.WF) (hv : m.isValid)
    (_htype : m.type = 1 ∨ m.type = 2 ∨ m.type = 3 ∨ m.type = 4) :
    Message.deserialize (Message.serialize m) = some m := by
  have h := Message.deserialize_serialize_append m hw hv []
  simpa using h

/-- Witness for C1 at a concrete message. -/
theorem claim_C1_witness :
    sampleMessage.WF ∧ sampleMessage.isValid ∧
    (sampleMessage.type = 1 ∨ sampleMessage.type = 2 ∨ sampleMessage.type = 3 ∨
      sampleMessage.type = 4) ∧
    Message.deserialize (Message.serialize sampleMessage) = some sampleMessage :=
  ⟨by decide, by decide, by decide,
   claim_C1_encode_decode_roundtrip sampleMessage (by decide) (by decide) (by decide)⟩

/-- Claim C2, counterexample: There is no `MAX_MESSAGE` cap: a frame with
length field 70000 — beyond the 65536 cap the claim references — is accepted
by `Message::deserialize` rather than rejected with an oversize error. -/
theorem claim_C2_counterexample :
    65536 < oversizedMessage.length ∧
    Message.deserialize (Message.serialize oversizedMessage) = some oversizedMessage := by
  refine ⟨by norm_num [oversizedMessage], ?_⟩
  have hw : oversizedMessage.WF := by
    refine ⟨by norm_num [oversizedMessage, MESSAGE_MAGIC], by norm_num [oversizedMessage],
      by norm_num [oversizedMessage], by norm_num [oversizedMessage],
      by norm_num [oversizedMessage], by norm_num [oversizedMessage], ?_⟩
    intro b hb
    have hb' : b ∈ List.replicate 69976 (0 : Nat) := hb
    rw [List.eq_of_mem_replicate hb']
    norm_num
  have hdata : oversizedMessage.data.length = 69976 := List.length_replicate 69976 0
  have hv : oversizedMessage.isValid :=
    ⟨rfl, by norm_num [oversizedMessage], by rw [hdata]; norm_num [oversizedMessage]⟩
  have h := Message.deserialize_serialize_append oversizedMessage hw hv []
  simpa using h

/-- Claim C2, amended: `Message::deserialize` rejects exactly: a buffer shorter
than the 24-byte header, a mismatched magic, a length field below 24, or a
length field exceeding the buffer — reporting failure only as a boolean, with
no `Oversize`/`Framing` error kinds and no `MAX_MESSAGE` cap.  Moreover the
`NetworkManager::receiveMessage` path (the other cited decoder) validates
nothing at all: any announced size round-trips. -/
theorem claim_C2_rejection_characterization :
    (∀ buffer : List Nat, Message.deserialize buffer = none ↔
      buffer.length < 24 ∨ fromLE (buffer.take 4) ≠ MESSAGE_MAGIC ∨
        fromLE ((buffer.drop 8).take 4) < 24 ∨
        buffer.length < fromLE ((buffer.drop 8).take 4)) ∧
    (∀ m : NMMessage, m.type < 2 ^ 32 → m.size < 2 ^ 32 → m.timestamp < 2 ^ 64 →
      m.size = m.data.length →
      deserializeNMMessage (serializeNMMessage m) = some m) :=
  ⟨Message.deserialize_eq_none_iff, deserializeNM_serializeNM⟩

/-- Witness for C2's amended statement: the empty buffer is rejected for being
short, and a concrete `NetworkManager` frame round-trips with no validation. -/
theorem claim_C2_witness :
    (Message.deserialize [] = none ↔
      ([] : List Nat).length < 24 ∨ fromLE (([] : List Nat).take 4) ≠ MESSAGE_MAGIC ∨
        fromLE ((([] : List Nat).drop 8).take 4) < 24 ∨
        ([] : List Nat).length < fromLE ((([] : List Nat).drop 8).take 4)) ∧
    (sampleNM.type < 2 ^ 32 ∧ sampleNM.size < 2 ^ 32 ∧ sampleNM.timestamp < 2 ^ 64 ∧
      sampleNM.size = sampleNM.data.length ∧
      deserializeNMMessage (serializeNMMessage sampleNM) = some sampleNM) :=
  ⟨claim_C2_rejection_characterization.1 [],
   by decide, by decide, by decide, by decide,
   claim_C2_rejection_characterization.2 sampleNM (by decide) (by decide) (by decide)
     (by decide)⟩

/-- Claim C10: Deserialization succeeds on any buffer extending a frame and
ignores the trailing bytes: the frame followed by garbage decodes to the same
message as the frame alone. -/
theorem claim_C10_trailing_bytes_ignored (m : Message) (extra : List Nat)
    (hw : m.WF) (hv : m.isValid) :
    Message.deserialize (m.serialize ++ extra) = some m ∧
    Message.deserialize (m.serialize ++ extra) = Message.deserialize m.serialize := by
  have h1 := Message.deserialize_serialize_append m hw hv extra
  have h2 := Message.deserialize_serialize_append m hw hv []
  rw [List.append_nil] at h2
  exact ⟨h1, h1.trans h2.symm⟩

/-- Witness for C10 at a concrete message and trailing garbage. -/
theorem claim_C10_witness :
    sampleMessage.WF ∧ sampleMessage.isValid ∧
    (Message.deserialize (sampleMessage.serialize ++ [99, 98, 97]) = some sampleMessage ∧
     Message.deserialize (sampleMessage.serialize ++ [99, 98, 97]) =
       Message.deserialize sampleMessage.serialize) :=
  ⟨by decide, by decide,
   claim_C10_trailing_bytes_ignored sampleMessage [99, 98, 97] (by decide) (by decide)⟩

/-- The client state after `connect` and `startAudio`. -/
def activeClientState : ClientState :=
  { connected := true, audio_active := true,
    outgoingSequenceNumber := 0, incomingSequenceNumber := 0 }

/-- Claim C4, code evaluation: The sender does not assign sequence numbers at
send time: two successive captures produce byte-identical messages (the
`NetworkManager` wire format has no sequence field), the
`outgoingSequenceNumber_` counter is never advanced, and instead the
*receiving* client stamps arriving `AUDIO_DATA` with `incomingSequenceNumber_++`
(0, then 1, ...). -/
theorem claim_C4_code_evaluation :
    (onAudioCaptured activeClientState [1, 2, 3, 4] 99).2 =
      (onAudioCaptured (onAudioCaptured activeClientState [1, 2, 3, 4] 99).1
        [1, 2, 3, 4] 99).2 ∧
    (onAudioCaptured (onAudioCaptured activeClientState [1, 2, 3, 4] 99).1
        [1, 2, 3, 4] 99).1.outgoingSequenceNumber = 0 ∧
    (clientHandleAudioData activeClientState
        { type := NM_AUDIO_DATA, size := 4, timestamp := 99, data := [1, 2, 3, 4] }).2 =
      some { data := [1, 2, 3, 4], timestamp := 99, sequenceNumber := 0 } ∧
    (clientHandleAudioData (clientHandleAudioData activeClientState
        { type := NM_AUDIO_DATA, size := 4, timestamp := 99, data := [1, 2, 3, 4] }).1
        { type := NM_AUDIO_DATA, size := 4, timestamp := 100, data := [5, 6, 7, 8] }).2 =
      some { data := [5, 6, 7, 8], timestamp := 100, sequenceNumber := 1 } := by
  decide

/-- A concrete packet with sequence 1. -/
def pktOne : ReceivedAudioPacket := { sequenceNumber := 1, timestamp := 10, audioData := [5] }

/-- A concrete packet with sequence 2. -/
def pktTwo : ReceivedAudioPacket := { sequenceNumber := 2, timestamp := 20, audioData := [6] }

/-- Claim C3: Starting from a reset jitter buffer, over any interleaving of
insertions, readiness checks and drains (short enough for the 32-bit expected
counter not to wrap), the sequence numbers of the successively drained packets
are strictly increasing — in particular, for any two drained packets with
`s₁ < s₂`, `s₁` emerges strictly before `s₂`. -/
theorem claim_C3_drain_strictly_increasing (f r maxMs : Nat) (ops : List JBOp)
    (hlen : 1 + ops.length < 2 ^ 32) :
    List.Pairwise (· < ·)
      ((runJB (initRS f r maxMs) ops).2.map ReceivedAudioPacket.sequenceNumber) := by
  have h := runJB_spec ops (initRS f r maxMs) (initRS_WF f r maxMs)
    (by simpa [initRS] using hlen)
  exact h.2.2.1

/-- A trace that inserts sequences 2 and 1 out of order and drains three
times. -/
def c3Ops : List JBOp :=
  [JBOp.add pktTwo, JBOp.add pktOne, JBOp.checkReady, JBOp.drain, JBOp.drain, JBOp.drain]

/-- Witness for C3: an out-of-order arrival still drains in increasing
order. -/
theorem claim_C3_witness :
    1 + c3Ops.length < 2 ^ 32 ∧
    List.Pairwise (· < ·)
      ((runJB (initRS 256 48000 200) c3Ops).2.map ReceivedAudioPacket.sequenceNumber) :=
  ⟨by decide, claim_C3_drain_strictly_increasing 256 48000 200 c3Ops (by decide)⟩

/-- Claim C5: On an `AUDIO_DATA` message the server leaves the client table
unchanged and writes the same serialized bytes to exactly those clients whose
socket differs from the sender's and whose ready flag is set; in particular no
write ever targets the sender's socket. -/
theorem claim_C5_forward_ready_others (serverRate serverChannels : Int)
    (clients : List ClientInfo) (msg : NMMessage) (sender : Nat)
    (htype : msg.type = NM_AUDIO_DATA) :
    handleClientMessage serverRate serverChannels clients msg sender =
      (clients, (clients.filter (fun c => decide (c.socket_fd ≠ sender) && c.ready)).map
        (fun c => ServerEffect.send c.socket_fd (serializeNMMessage msg))) ∧
    ∀ bytes, ServerEffect.send sender bytes ∉
      (handleClientMessage serverRate serverChannels clients msg sender).2 := by
  have heq : handleClientMessage serverRate serverChannels clients msg sender =
      (clients, broadcastAudioToOthers clients msg sender) := by
    simp [handleClientMessage, htype, NM_CONNECT, NM_DISCONNECT, NM_CLIENT_CONFIG,
      NM_CLIENT_READY, NM_AUDIO_DATA, NM_HEARTBEAT]
  constructor
  · rw [heq, broadcastAudioToOthers_eq]
  · intro bytes hmem
    rw [heq] at hmem
    dsimp only at hmem
    rw [broadcastAudioToOthers_eq] at hmem
    rcases List.mem_map.mp hmem with ⟨c, hc, hce⟩
    have hcf := (List.mem_filter.mp hc).2
    simp only [Bool.and_eq_true, decide_eq_true_eq] at hcf
    injection hce with hsock _
    exact hcf.1 hsock

/-- A three-client table: sockets 10 (ready), 11 (not ready), 12 (ready). -/
def wClients : List ClientInfo :=
  [{ socket_fd := 10, id := "client_10", ready := true, sampleRate := 48000,
     channels := 2, bufferSize := 256 },
   { socket_fd := 11, id := "client_11", ready := false, sampleRate := 48000,
     channels := 2, bufferSize := 256 },
   { socket_fd := 12, id := "client_12", ready := true, sampleRate := 44100,
     channels := 1, bufferSize := 256 }]

/-- A concrete audio message relayed by the server in the witnesses. -/
def wAudioMsg : NMMessage := { type := NM_AUDIO_DATA, size := 4, timestamp := 77, data := [1, 2, 3, 4] }

/-- Witness for C5: client 10 sends; only ready client 12 receives. -/
theorem claim_C5_witness :
    wAudioMsg.type = NM_AUDIO_DATA ∧
    handleClientMessage 48000 2 wClients wAudioMsg 10 =
      (wClients, (wClients.filter (fun c => decide (c.socket_fd ≠ 10) && c.ready)).map
        (fun c => ServerEffect.send c.socket_fd (serializeNMMessage wAudioMsg))) ∧
    ∀ bytes, ServerEffect.send 10 bytes ∉
      (handleClientMessage 48000 2 wClients wAudioMsg 10).2 :=
  ⟨by decide, (claim_C5_forward_ready_others 48000 2 wClients wAudioMsg 10 (by decide)).1,
   (claim_C5_forward_ready_others 48000 2 wClients wAudioMsg 10 (by decide)).2⟩

/-- Claim C9: A `CLIENT_CONFIG` whose payload is shorter than the 12-byte
`AudioConfig` is silently ignored: the table is unchanged and no write or
disconnect happens; the record created on `CONNECT` keeps its defaults (server
sample rate, server channels, 256 frames, not ready). -/
theorem claim_C9_short_config_ignored (serverRate serverChannels : Int)
    (clients : List ClientInfo) (sock : Nat) (connectMsg configMsg : NMMessage)
    (hc : connectMsg.type = NM_CONNECT) (ht : configMsg.type = NM_CLIENT_CONFIG)
    (hs : configMsg.size < 12) :
    handleClientMessage serverRate serverChannels clients connectMsg sock =
      (clients ++ [{ socket_fd := sock, id := "client_" ++ toString sock,
                     ready := false, sampleRate := serverRate,
                     channels := serverChannels, bufferSize := 256 }], []) ∧
    (∀ cl : List ClientInfo,
      handleClientMessage serverRate serverChannels cl configMsg sock = (cl, [])) := by
  constructor
  · simp [handleClientMessage, hc, NM_CONNECT, addClient]
  · intro cl
    have h12 : ¬ 12 ≤ configMsg.size := by omega
    simp [handleClientMessage, ht, NM_CONNECT, NM_DISCONNECT, NM_CLIENT_CONFIG, h12]

/-- A `CONNECT` notification as produced by the accept loop. -/
def wConnect : NMMessage := { type := NM_CONNECT, size := 0, timestamp := 1, data := [] }

/-- A truncated 8-byte `CLIENT_CONFIG` payload (shorter than `AudioConfig`). -/
def wShortConfig : NMMessage :=
  { type := NM_CLIENT_CONFIG, size := 8, timestamp := 2, data := [0, 0, 0, 0, 0, 0, 0, 0] }

/-- Witness for C9 with a concrete socket and messages. -/
theorem claim_C9_witness :
    wConnect.type = NM_CONNECT ∧ wShortConfig.type = NM_CLIENT_CONFIG ∧
    wShortConfig.size < 12 ∧
    (handleClientMessage 48000 2 [] wConnect 5 =
      ([{ socket_fd := 5, id := "client_" ++ toString 5, ready := false,
          sampleRate := 48000, channels := 2, bufferSize := 256 }], []) ∧
     ∀ cl : List ClientInfo,
       handleClientMessage 48000 2 cl wShortConfig 5 = (cl, [])) :=
  ⟨by decide, by decide, by decide,
   by
    have h := claim_C9_short_config_ignored 48000 2 [] 5 wConnect wShortConfig
      (by decide) (by decide) (by decide)
    simpa using h⟩

/-- A packet re-using sequence 1, arriving after the buffer has drained past
it. -/
def lateArrival : ReceivedAudioPacket := { sequenceNumber := 1, timestamp := 30, audioData := [7] }

/-- A trace that inserts and drains sequences 1 and 2, leaving
`expectedSequenceNumber = 3`. -/
def c6Trace : List JBOp :=
  [JBOp.add pktOne, JBOp.add pktTwo, JBOp.checkReady, JBOp.drain, JBOp.drain]

/-- The buffer state after `c6Trace`. -/
def c6State : RSState := (runJB (initRS 256 48000 200) c6Trace).1

/-- Claim C6, counterexample: Inserting a packet with sequence 1 while
`expectedSequenceNumber = 3` does *not* drop it and does *not* touch the
`totalPacketsDropped_` counter: `RenderSource::addToJitterBuffer` has no
late-arrival check, so the packet is stored. -/
theorem claim_C6_counterexample :
    c6State.expectedSequenceNumber = 3 ∧
    lateArrival.sequenceNumber < c6State.expectedSequenceNumber ∧
    (addToJitterBuffer lateArrival c6State).totalPacketsDropped =
      c6State.totalPacketsDropped ∧
    mapContains (addToJitterBuffer lateArrival c6State).jitterBuffer
      lateArrival.sequenceNumber = true := by
  decide

/-- Claim C6, amended: A late packet (`sequence < expected`) is *inserted* into
the store rather than dropped: the dropped counter is unchanged (as long as the
insertion does not overflow the buffer), yet the packet is indeed never
returned by any subsequent drain call, because drains only ever return the
non-decreasing expected sequence. -/
theorem claim_C6_late_insert (s : RSState) (p : ReceivedAudioPacket) (ops : List JBOp)
    (hwf : s.WF)
    (hlate : p.sequenceNumber < s.expectedSequenceNumber)
    (hroom : (s.jitterBuffer.length + 1) * (1000 * s.framesPerBuffer) ≤
      s.adaptiveMaxBufferMs * s.sampleRate)
    (hlen : s.expectedSequenceNumber + ops.length < 2 ^ 32) :
    (addToJitterBuffer p s).totalPacketsDropped = s.totalPacketsDropped ∧
    mapContains (addToJitterBuffer p s).jitterBuffer p.sequenceNumber = true ∧
    ∀ q ∈ (runJB (addToJitterBuffer p s) ops).2,
      q.sequenceNumber ≠ p.sequenceNumber := by
  have hwf' : (addToJitterBuffer p s).WF := addToJitterBuffer_WF hwf
  have hexp := addToJitterBuffer_expected p s
  have houtputs : ∀ q ∈ (runJB (addToJitterBuffer p s) ops).2,
      (addToJitterBuffer p s).expectedSequenceNumber ≤ q.sequenceNumber :=
    (runJB_spec ops _ hwf' (by rw [hexp]; exact hlen)).2.2.2
  refine ⟨?_, ?_, ?_⟩
  · by_cases hc : mapContains s.jitterBuffer p.sequenceNumber
    · simp [addToJitterBuffer, hc]
    · have hnoev : evictLoop s.framesPerBuffer s.sampleRate s.adaptiveMaxBufferMs
          (insertSorted p.sequenceNumber p s.jitterBuffer) s.totalPacketsDropped =
          (insertSorted p.sequenceNumber p s.jitterBuffer, s.totalPacketsDropped) := by
        apply evictLoop_no_evict
        rw [insertSorted_length]
        omega
      simp [addToJitterBuffer, hc, hnoev]
  · by_cases hc : mapContains s.jitterBuffer p.sequenceNumber
    · simp [addToJitterBuffer, hc]
    · have hnoev : evictLoop s.framesPerBuffer s.sampleRate s.adaptiveMaxBufferMs
          (insertSorted p.sequenceNumber p s.jitterBuffer) s.totalPacketsDropped =
          (insertSorted p.sequenceNumber p s.jitterBuffer, s.totalPacketsDropped) := by
        apply evictLoop_no_evict
        rw [insertSorted_length]
        omega
      simp only [addToJitterBuffer, hc, Bool.false_eq_true, if_false, hnoev]
      exact List.any_eq_true.mpr
        ⟨(p.sequenceNumber, p), mem_insertSorted.mpr (Or.inl rfl), by simp⟩
  · intro q hq
    have h1 := houtputs q hq
    rw [hexp] at h1
    omega

/-- Witness for C6's amended statement at the concrete post-drain state. -/
theorem claim_C6_witness :
    c6State.WF ∧
    lateArrival.sequenceNumber < c6State.expectedSequenceNumber ∧
    (c6State.jitterBuffer.length + 1) * (1000 * c6State.framesPerBuffer) ≤
      c6State.adaptiveMaxBufferMs * c6State.sampleRate ∧
    c6State.expectedSequenceNumber + ([JBOp.drain, JBOp.drain] : List JBOp).length < 2 ^ 32 ∧
    ((addToJitterBuffer lateArrival c6State).totalPacketsDropped =
        c6State.totalPacketsDropped ∧
      mapContains (addToJitterBuffer lateArrival c6State).jitterBuffer
        lateArrival.sequenceNumber = true ∧
      ∀ q ∈ (runJB (addToJitterBuffer lateArrival c6State) [JBOp.drain, JBOp.drain]).2,
        q.sequenceNumber ≠ lateArrival.sequenceNumber) :=
  ⟨by decide, by decide, by decide, by decide,
   claim_C6_late_insert c6State lateArrival [JBOp.drain, JBOp.drain]
     (by decide) (by decide) (by decide) (by decide)⟩

/-- A second packet carrying the already-used sequence 1. -/
def duplicateArrival : ReceivedAudioPacket := { sequenceNumber := 1, timestamp := 50, audioData := [9] }

/-- A trace that inserts sequence 1 and drains it. -/
def c7Trace : List JBOp := [JBOp.add pktOne, JBOp.checkReady, JBOp.drain]

/-- The buffer state after `c7Trace` (sequence 1 already played). -/
def c7State : RSState := (runJB (initRS 256 48000 200) c7Trace).1

/-- Claim C7, counterexample: After a packet with sequence 1 has been inserted
and drained, a second insertion of sequence 1 is *not* dropped as a duplicate:
the duplicate check only consults the current store, so the re-sent packet is
accepted into the buffer. -/
theorem claim_C7_counterexample :
    (runJB (initRS 256 48000 200) c7Trace).2 = [pktOne] ∧
    (addToJitterBuffer duplicateArrival c7State).jitterBuffer =
      [(1, duplicateArrival)] := by
  decide

/-- Claim C7, amended: An insertion whose sequence is currently resident in the
store is dropped as a duplicate (the state is unchanged), and — independently
of re-insertions after draining — at most one packet per sequence number is
ever returned by drain, since drained sequences are pairwise distinct. -/
theorem claim_C7_duplicate_policy :
    (∀ (s : RSState) (p : ReceivedAudioPacket),
      mapContains s.jitterBuffer p.sequenceNumber = true →
      addToJitterBuffer p s = s) ∧
    (∀ (s : RSState) (ops : List JBOp), s.WF →
      s.expectedSequenceNumber + ops.length < 2 ^ 32 →
      ((runJB s ops).2.map ReceivedAudioPacket.sequenceNumber).Nodup) := by
  constructor
  · intro s p h
    simp [addToJitterBuffer, h]
  · intro s ops hwf hlen
    have hpw := (runJB_spec ops s hwf hlen).2.2.1
    exact hpw.imp Nat.ne_of_lt

/-- A one-entry buffer state holding sequence 1. -/
def c7DupState : RSState :=
  { jitterBuffer := [(1, pktOne)], expectedSequenceNumber := 1,
    jitterBufferReady := true, totalPacketsDropped := 0, framesPerBuffer := 256,
    sampleRate := 48000, adaptiveMaxBufferMs := 200 }

/-- Witness for C7's amended statement. -/
theorem claim_C7_witness :
    mapContains c7DupState.jitterBuffer duplicateArrival.sequenceNumber = true ∧
    addToJitterBuffer duplicateArrival c7DupState = c7DupState ∧
    (c7DupState.WF ∧
     c7DupState.expectedSequenceNumber +
       ([JBOp.drain, JBOp.drain] : List JBOp).length < 2 ^ 32 ∧
     ((runJB c7DupState [JBOp.drain, JBOp.drain]).2.map
        ReceivedAudioPacket.sequenceNumber).Nodup) :=
  ⟨by decide,
   claim_C7_duplicate_policy.1 c7DupState duplicateArrival (by decide),
   by decide, by decide,
   claim_C7_duplicate_policy.2 c7DupState [JBOp.drain, JBOp.drain] (by decide) (by decide)⟩

/-- Claim C8: From a reset buffer, after any sequence of operations the store
never holds more than `⌈max_ms / packet_interval_ms⌉` packets; and an
insertion overflowing the limit evicts from the low-sequence end (the result
is a suffix of the post-insertion store), incrementing `totalPacketsDropped_`
at least once and landing back at or below the pre-insertion size. -/
theorem claim_C8_capacity :
    (∀ (f r maxMs : Nat) (ops : List JBOp), 1 ≤ f → 1 ≤ r →
      (runJB (initRS f r maxMs) ops).1.jitterBuffer.length ≤ jitterCapacity f r maxMs) ∧
    (∀ (s : RSState) (p : ReceivedAudioPacket),
      mapContains s.jitterBuffer p.sequenceNumber = false →
      s.adaptiveMaxBufferMs * s.sampleRate <
        (s.jitterBuffer.length + 1) * (1000 * s.framesPerBuffer) →
      s.totalPacketsDropped + 1 ≤ (addToJitterBuffer p s).totalPacketsDropped ∧
      (addToJitterBuffer p s).jitterBuffer <:+
        insertSorted p.sequenceNumber p s.jitterBuffer ∧
      (addToJitterBuffer p s).jitterBuffer.length ≤ s.jitterBuffer.length) := by
  constructor
  · intro f r maxMs ops hf hr
    have hb := (runJB_bound ops (initRS f r maxMs) (by simp [initRS])).1
    have hb' : (runJB (initRS f r maxMs) ops).1.jitterBuffer.length * (1000 * f) ≤
        maxMs * r := hb
    have h0 : 0 < 1000 * f := by omega
    have hfloor : (runJB (initRS f r maxMs) ops).1.jitterBuffer.length ≤
        (maxMs * r) / (1000 * f) := (Nat.le_div_iff_mul_le h0).mpr hb'
    refine hfloor.trans (Nat.div_le_div_right ?_)
    omega
  · intro s p hfresh hover
    have hlen1 : (insertSorted p.sequenceNumber p s.jitterBuffer).length =
        s.jitterBuffer.length + 1 := insertSorted_length _ _ _
    have hbound := evictLoop_bound s.framesPerBuffer s.sampleRate s.adaptiveMaxBufferMs
      (insertSorted p.sequenceNumber p s.jitterBuffer) s.totalPacketsDropped
    have hsuff := evictLoop_suffix s.framesPerBuffer s.sampleRate s.adaptiveMaxBufferMs
      (insertSorted p.sequenceNumber p s.jitterBuffer) s.totalPacketsDropped
    have hdrop := evictLoop_dropped s.framesPerBuffer s.sampleRate s.adaptiveMaxBufferMs
      (insertSorted p.sequenceNumber p s.jitterBuffer) s.totalPacketsDropped
    have haddeq : addToJitterBuffer p s = { s with
        jitterBuffer := (evictLoop s.framesPerBuffer s.sampleRate s.adaptiveMaxBufferMs
          (insertSorted p.sequenceNumber p s.jitterBuffer) s.totalPacketsDropped).1,
        totalPacketsDropped := (evictLoop s.framesPerBuffer s.sampleRate
          s.adaptiveMaxBufferMs (insertSorted p.sequenceNumber p s.jitterBuffer)
          s.totalPacketsDropped).2 } := by
      simp [addToJitterBuffer, hfresh]
    have hlt : (evictLoop s.framesPerBuffer s.sampleRate s.adaptiveMaxBufferMs
        (insertSorted p.sequenceNumber p s.jitterBuffer)
        s.totalPacketsDropped).1.length < s.jitterBuffer.length + 1 := by
      by_contra hge
      push_neg at hge
      have h1 := Nat.mul_le_mul_right (1000 * s.framesPerBuffer) hge
      have h2 := le_trans h1 hbound
      exact absurd h2 (not_le.mpr hover)
    rw [hlen1] at hdrop
    refine ⟨?_, ?_, ?_⟩
    · rw [haddeq]
      dsimp only
      omega
    · rw [haddeq]
      exact hsuff
    · rw [haddeq]
      dsimp only
      omega

/-- A packet with sequence 3 used to overflow the two-packet witness buffer. -/
def c8Packet3 : ReceivedAudioPacket := { sequenceNumber := 3, timestamp := 30, audioData := [1] }

/-- A full buffer at its two-packet capacity (`f = 1`, `r = 1`,
`max = 2000` ms, so interval is 1000 ms and capacity is 2). -/
def c8FullState : RSState :=
  { jitterBuffer := [(1, pktOne), (2, pktTwo)], expectedSequenceNumber := 1,
    jitterBufferReady := true, totalPacketsDropped := 0, framesPerBuffer := 1,
    sampleRate := 1, adaptiveMaxBufferMs := 2000 }

/-- Insertions overflowing the capacity-2 configuration. -/
def c8Ops : List JBOp := [JBOp.add pktOne, JBOp.add pktTwo, JBOp.add c8Packet3]

/-- Witness for C8 at a concrete configuration and a concrete overflow. -/
theorem claim_C8_witness :
    ((runJB (initRS 1 1 2000) c8Ops).1.jitterBuffer.length ≤ jitterCapacity 1 1 2000) ∧
    (mapContains c8FullState.jitterBuffer c8Packet3.sequenceNumber = false ∧
     c8FullState.adaptiveMaxBufferMs * c8FullState.sampleRate <
       (c8FullState.jitterBuffer.length + 1) * (1000 * c8FullState.framesPerBuffer) ∧
     (c8FullState.totalPacketsDropped + 1 ≤
        (addToJitterBuffer c8Packet3 c8FullState).totalPacketsDropped ∧
      (addToJitterBuffer c8Packet3 c8FullState).jitterBuffer <:+
        insertSorted c8Packet3.sequenceNumber c8Packet3 c8FullState.jitterBuffer ∧
      (addToJitterBuffer c8Packet3 c8FullState).jitterBuffer.length ≤
        c8FullState.jitterBuffer.length)) :=
  ⟨claim_C8_capacity.1 1 1 2000 c8Ops (by decide) (by decide),
   by decide, by decide,
   claim_C8_capacity.2 c8FullState c8Packet3 (by decide) (by decide)⟩
